import Mathlib

/-!
Verification of the authorization-and-visibility core of the marine-retrofit
backend (FastAPI routers under `backend/app/routers/`), shallowly embedded in
Lean 4.  Database rows are Lean structures, the database is a record of row
lists, endpoint handlers are pure functions from a database and a principal to
`Except HTTPExc` results.  HTTP exceptions carry their numeric status code and
the detail string, mirroring `HTTPException(status_code, detail)`.

Out-of-scope collaborators (token authentication, the SQL engine, the file
store for blueprint uploads) are not modelled; handlers take the resolved
`current_user` directly and database commits are modelled as returning the
updated database value.
-/

namespace MarineRetrofit

/-- HTTP error as raised by `HTTPException(status_code=..., detail=...)`. -/
structure HTTPExc where
  status : Nat
  detail : String
deriving DecidableEq, Repr

/-- Row of the `users` table (fields the routers read).  `role` is an
`Option` because the SQLAlchemy column is nullable (it only has a default). -/
structure User where
  user_id : Nat
  full_name : String
  role : Option String
  is_active : Bool
deriving DecidableEq, Repr

/-- Row of the `projects` table (fields the routers read). -/
structure Project where
  project_id : Nat
  project_name : String
  status : String
  created_by : Option Nat
deriving DecidableEq, Repr

/-- Row of the `project_assignments` table: (project_id, user_id) membership. -/
structure ProjectAssignment where
  project_id : Nat
  user_id : Nat
deriving DecidableEq, Repr

/-- Row of the `tasks` table (fields the routers read). -/
structure Task where
  task_id : Nat
  project_id : Nat
  task_name : String
  assigned_to : Option Nat
  status : String
  completion_date : Option Nat
deriving DecidableEq, Repr

/-- Row of the `blueprints` table (fields the routers read). -/
structure Blueprint where
  blueprint_id : Nat
  project_id : Nat
  uploaded_by : Nat
  is_active : Bool
deriving DecidableEq, Repr

/-- Row of the `inventory` table (fields the dashboard reads). -/
structure Inventory where
  item_id : Nat
  quantity : Int
  reorder_level : Int
deriving DecidableEq, Repr

/-- The database: one list per table the routers touch. -/
structure DB where
  users : List User
  projects : List Project
  assignments : List ProjectAssignment
  tasks : List Task
  blueprints : List Blueprint
  inventory : List Inventory
deriving DecidableEq, Repr

/-- `db.query(User).filter(User.user_id == uid).first()`. -/
def findUser (db : DB) (uid : Nat) : Option User :=
  db.users.find? (fun u => u.user_id == uid)

/-- `db.query(Project).filter(Project.project_id == pid).first()`. -/
def findProject (db : DB) (pid : Nat) : Option Project :=
  db.projects.find? (fun p => p.project_id == pid)

/-- `db.query(Task).filter(Task.task_id == tid).first()`. -/
def findTask (db : DB) (tid : Nat) : Option Task :=
  db.tasks.find? (fun t => t.task_id == tid)

/-- `db.query(Blueprint).filter(Blueprint.blueprint_id == bid).first()`. -/
def findBlueprint (db : DB) (bid : Nat) : Option Blueprint :=
  db.blueprints.find? (fun b => b.blueprint_id == bid)

/-- Membership of `(pid, uid)` in an assignment-row list. -/
def memberOf (asgs : List ProjectAssignment) (pid : Nat) (uid : Nat) : Bool :=
  asgs.any (fun a => a.project_id == pid && a.user_id == uid)

/-- The `ProjectAssignment` membership query used by `validate_task_assignment`
and `download_blueprint`: is `uid` on project `pid`'s team. -/
def isTeamMember (db : DB) (pid : Nat) (uid : Nat) : Bool :=
  memberOf db.assignments pid uid

/-- Detail string of the 404 raised for a missing assignee user. -/
def userNotFoundMsg (uid : Nat) : String :=
  "User with ID " ++ toString uid ++ " not found"

/-- Detail string of the 404 raised for a missing project. -/
def projectNotFoundMsg (pid : Nat) : String :=
  "Project with ID " ++ toString pid ++ " not found"

/-- Detail string of the 400 raised when the assignee is not on the team.
It carries the user display name and the project display name (quote
characters of the source text omitted). -/
def notTeamMemberMsg (userName : String) (projectName : String) : String :=
  "User " ++ userName ++ " is not assigned to project " ++ projectName ++
    ". Only team members of this project can be assigned tasks."

/-- `tasks.validate_task_assignment(db, project_id, assigned_to)`:
absent assignee always passes; otherwise the user must exist (404), the
project must exist (404) and the user must be on the team (400). -/
def validate_task_assignment (db : DB) (project_id : Nat)
    (assigned_to : Option Nat) : Except HTTPExc Unit :=
  match assigned_to with
  | none => .ok ()
  | some uid =>
    match findUser db uid with
    | none => .error ⟨404, userNotFoundMsg uid⟩
    | some user =>
      match findProject db project_id with
      | none => .error ⟨404, projectNotFoundMsg project_id⟩
      | some project =>
        if isTeamMember db project_id uid then .ok ()
        else .error ⟨400, notTeamMemberMsg user.full_name project.project_name⟩

/-- `TaskCreate` payload (fields the handler reads). -/
structure TaskCreate where
  project_id : Nat
  task_name : String
  assigned_to : Option Nat
  status : String
deriving DecidableEq, Repr

/-- `TaskUpdate` payload under Pydantic `exclude_unset` semantics: an outer
`none` means the field is not in the change set.  For `assigned_to` the inner
`Option` distinguishes an explicit null (unassign) from a user id.  An
explicit null for `project_id` is not modelled (the column is non-nullable,
so such a write could not be committed). -/
structure TaskUpdate where
  project_id : Option Nat := none
  task_name : Option String := none
  assigned_to : Option (Option Nat) := none
  status : Option String := none
deriving DecidableEq, Repr

/-- `update_data.get(field, current)` applied to every field of the task,
as the `setattr` loop of `update_task` does. -/
def applyTaskUpdate (t : Task) (upd : TaskUpdate) : Task :=
  { t with
    project_id := upd.project_id.getD t.project_id
    task_name := upd.task_name.getD t.task_name
    assigned_to := match upd.assigned_to with
      | none => t.assigned_to
      | some v => v
    status := upd.status.getD t.status }

/-- `update_data.get(..., task.assigned_to)`: the final assignee after the
update, used for re-validation. -/
def finalAssignedTo (t : Task) (upd : TaskUpdate) : Option Nat :=
  match upd.assigned_to with
  | none => t.assigned_to
  | some v => v

/-- SQLAlchemy mutates the first row matched by `.first()`; replace the
first task whose id matches. -/
def replaceFirstTask (ts : List Task) (tid : Nat) (t2 : Task) : List Task :=
  match ts with
  | [] => []
  | t :: rest =>
    if t.task_id == tid then t2 :: rest
    else t :: replaceFirstTask rest tid t2

/-- Replace the first blueprint whose id matches (SQLAlchemy `.first()` then
mutate). -/
def replaceFirstBlueprint (bs : List Blueprint) (bid : Nat) (b2 : Blueprint) :
    List Blueprint :=
  match bs with
  | [] => []
  | b :: rest =>
    if b.blueprint_id == bid then b2 :: rest
    else b :: replaceFirstBlueprint rest bid b2

/-- Replace the first project whose id matches. -/
def replaceFirstProject (ps : List Project) (pid : Nat) (p2 : Project) :
    List Project :=
  match ps with
  | [] => []
  | p :: rest =>
    if p.project_id == pid then p2 :: rest
    else p :: replaceFirstProject rest pid p2

/-- Autoincrement id for an inserted task. -/
def nextTaskId (db : DB) : Nat :=
  (db.tasks.foldr (fun t m => max t.task_id m) 0) + 1

/-- `tasks.create_task`: validate the assignment, then insert.  There is no
role check on this endpoint. -/
def create_task (db : DB) (payload : TaskCreate) (_current_user : User) :
    Except HTTPExc (DB × Task) :=
  match validate_task_assignment db payload.project_id payload.assigned_to with
  | .error e => .error e
  | .ok _ =>
    let t : Task :=
      { task_id := nextTaskId db
        project_id := payload.project_id
        task_name := payload.task_name
        assigned_to := payload.assigned_to
        status := payload.status
        completion_date := none }
    .ok ({ db with tasks := db.tasks ++ [t] }, t)

/-- The `project_id`-change block of `update_task`: the new project must
exist, and a project manager must own both the destination project and (when
it still exists) the task's current project.  Other roles are not checked. -/
def checkProjectMove (db : DB) (task : Task) (upd : TaskUpdate) (u : User) :
    Except HTTPExc Unit :=
  match upd.project_id with
  | none => .ok ()
  | some new_pid =>
    match findProject db new_pid with
    | none => .error ⟨404, projectNotFoundMsg new_pid⟩
    | some new_project =>
      if u.role == some "project_manager" then
        if new_project.created_by != some u.user_id then
          .error ⟨403, "You can only move tasks to projects you created"⟩
        else
          match findProject db task.project_id with
          | some cp =>
            if cp.created_by != some u.user_id then
              .error ⟨403, "You can only edit tasks from your own projects"⟩
            else .ok ()
          | none => .ok ()
      else .ok ()

/-- The assignment-validation block of `update_task`: runs only when
`assigned_to` or `project_id` is in the change set; an explicit null
assignment is let through; otherwise the final (project, assignee) pair is
re-validated. -/
def checkAssignmentChange (db : DB) (task : Task) (upd : TaskUpdate) :
    Except HTTPExc Unit :=
  if upd.assigned_to.isSome || upd.project_id.isSome then
    if upd.assigned_to == some none then .ok ()
    else
      validate_task_assignment db (upd.project_id.getD task.project_id)
        (finalAssignedTo task upd)
  else .ok ()

/-- `tasks.update_task`: 404 on a missing task, then the project-move block,
then the assignment-validation block, then apply the change set.  There is no
engineer/technician role check on this endpoint. -/
def update_task (db : DB) (task_id : Nat) (upd : TaskUpdate) (u : User) :
    Except HTTPExc (DB × Task) :=
  match findTask db task_id with
  | none => .error ⟨404, "Task not found"⟩
  | some task =>
    match checkProjectMove db task upd u with
    | .error e => .error e
    | .ok _ =>
      match checkAssignmentChange db task upd with
      | .error e => .error e
      | .ok _ =>
        let task2 := applyTaskUpdate task upd
        .ok ({ db with tasks := replaceFirstTask db.tasks task_id task2 },
             task2)

/-- `tasks.mark_task_done`: 404 on a missing task; 403 for a role outside the
four enumerated ones; engineers/technicians may only complete their own
tasks; project managers only tasks of projects they created; then the status
becomes completed and the completion date is set to today. -/
def mark_task_done (db : DB) (task_id : Nat) (u : User) (today : Nat) :
    Except HTTPExc (DB × Task) :=
  match findTask db task_id with
  | none => .error ⟨404, "Task not found"⟩
  | some task =>
    if !(u.role == some "admin" || u.role == some "project_manager" ||
         u.role == some "engineer" || u.role == some "technician") then
      .error ⟨403, "Not authorized to complete tasks"⟩
    else if (u.role == some "engineer" || u.role == some "technician") &&
        task.assigned_to != some u.user_id then
      .error ⟨403, "You can only complete tasks assigned to you"⟩
    else
      match (if u.role == some "project_manager"
             then findProject db task.project_id else none) with
      | some project =>
        if project.created_by != some u.user_id then
          .error ⟨403, "You can only complete tasks from your projects"⟩
        else
          let task2 := { task with status := "completed",
                                   completion_date := some today }
          .ok ({ db with tasks := replaceFirstTask db.tasks task_id task2 },
               task2)
      | none =>
        let task2 := { task with status := "completed",
                                 completion_date := some today }
        .ok ({ db with tasks := replaceFirstTask db.tasks task_id task2 },
             task2)

/-- Task row enriched with display names, as the handlers return. -/
structure TaskResponse where
  task : Task
  project_name : String
  assigned_to_name : String
deriving DecidableEq, Repr

/-- The display-name enrichment the task handlers perform on each row.
`if task.assigned_to:` is Python truthiness, so an assignee id of 0 also
reads as Unassigned. -/
def enrichTask (db : DB) (t : Task) : TaskResponse :=
  { task := t
    project_name := match findProject db t.project_id with
      | some p => p.project_name
      | none => "Unknown"
    assigned_to_name := match t.assigned_to with
      | some uid =>
        if uid != 0 then
          match findUser db uid with
          | some usr => usr.full_name
          | none => "Unknown"
        else "Unassigned"
      | none => "Unassigned" }

/-- The role-dependent base query of `tasks.get_tasks`: admin sees all,
project managers the tasks of projects they created, every other role the
tasks assigned to them. -/
def taskVisibilityFilter (db : DB) (u : User) : List Task :=
  if u.role == some "admin" then db.tasks
  else if u.role == some "project_manager" then
    let pids := (db.projects.filter
      (fun p => p.created_by == some u.user_id)).map (fun p => p.project_id)
    db.tasks.filter (fun t => pids.contains t.project_id)
  else db.tasks.filter (fun t => t.assigned_to == some u.user_id)

/-- `tasks.get_tasks`: role filter, optional project filter (Python
truthiness: a filter value of 0 is ignored), offset/limit, then enrichment. -/
def get_tasks (db : DB) (project_id : Option Nat) (skip limit : Nat)
    (u : User) : List TaskResponse :=
  let base := taskVisibilityFilter db u
  let base2 : List Task := match project_id with
    | some pid => if pid != 0 then
        base.filter (fun t => t.project_id == pid) else base
    | none => base
  ((base2.drop skip).take limit).map (fun t => enrichTask db t)

/-- `ProjectUpdate` payload under `exclude_unset` semantics (fields the
handler writes that this model carries, plus the team-replacement list). -/
structure ProjectUpdate where
  project_name : Option String := none
  status : Option String := none
  assigned_user_ids : Option (List Nat) := none
deriving DecidableEq, Repr

/-- `projects.update_project`: 404 on a missing project, then apply the field
updates and, when `assigned_user_ids` is provided, delete every assignment of
the project and insert the new team.  No role or ownership check is made, and
existing tasks of the project are not re-validated. -/
def update_project (db : DB) (pid : Nat) (upd : ProjectUpdate)
    (_current_user : User) : Except HTTPExc (DB × Project) :=
  match findProject db pid with
  | none => .error ⟨404, "Project not found"⟩
  | some p =>
    let p2 : Project :=
      { p with project_name := upd.project_name.getD p.project_name
               status := upd.status.getD p.status }
    let asg2 := match upd.assigned_user_ids with
      | none => db.assignments
      | some ids =>
        db.assignments.filter (fun a => !(a.project_id == pid)) ++
          ids.map (fun uid => { project_id := pid, user_id := uid })
    .ok ({ db with projects := replaceFirstProject db.projects pid p2
                   assignments := asg2 }, p2)

/-- `projects.delete_project`: 404 on a missing project, then delete the row;
the ORM cascades delete the project's tasks, blueprints and assignments.  No
role or ownership check is made. -/
def delete_project (db : DB) (pid : Nat) (_current_user : User) :
    Except HTTPExc DB :=
  match findProject db pid with
  | none => .error ⟨404, "Project not found"⟩
  | some _ =>
    .ok { db with
          projects := db.projects.eraseP (fun p => p.project_id == pid)
          tasks := db.tasks.filter (fun t => !(t.project_id == pid))
          blueprints := db.blueprints.filter (fun b => !(b.project_id == pid))
          assignments :=
            db.assignments.filter (fun a => !(a.project_id == pid)) }

/-- The §3 invariant: every task is unassigned or assigned to a member of
its project's team. -/
def taskAssignmentInvariant (db : DB) : Bool :=
  db.tasks.all (fun t =>
    match t.assigned_to with
    | none => true
    | some uid => memberOf db.assignments t.project_id uid)

/-- The dashboard counters. -/
structure DashboardStats where
  total_projects : Nat
  total_tasks : Nat
  completed_tasks : Nat
  total_inventory : Nat
  low_stock_items : Nat
deriving DecidableEq, Repr

/-- The distinct project ids a user is assigned to, as queried by the
dashboard and the blueprint list. -/
def assignedProjectIds (db : DB) (uid : Nat) : List Nat :=
  ((db.assignments.filter (fun a => a.user_id == uid)).map
    (fun a => a.project_id)).dedup

/-- `dashboard.get_dashboard_stats`: 500 on a null role; per-role filtered
project and task counts; 403 on an unrecognized role; global inventory
counts.  The `if pm_project_ids:` and `if assigned_project_ids:` guards are
Python truthiness on the id lists. -/
def get_dashboard_stats (db : DB) (u : User) :
    Except HTTPExc DashboardStats :=
  match u.role with
  | none => .error ⟨500, "User role not properly set"⟩
  | some role =>
    let total_inventory := db.inventory.length
    let low_stock_items :=
      (db.inventory.filter (fun i => i.quantity ≤ i.reorder_level)).length
    if role == "admin" then
      .ok { total_projects := db.projects.length
            total_tasks := (db.tasks.filter
              (fun t => !(t.status == "completed"))).length
            completed_tasks := (db.tasks.filter
              (fun t => t.status == "completed")).length
            total_inventory := total_inventory
            low_stock_items := low_stock_items }
    else if role == "project_manager" then
      let pm_project_ids := (db.projects.filter
        (fun p => p.created_by == some u.user_id)).map (fun p => p.project_id)
      if !pm_project_ids.isEmpty then
        .ok { total_projects := pm_project_ids.length
              total_tasks := (db.tasks.filter (fun t =>
                pm_project_ids.contains t.project_id &&
                  !(t.status == "completed"))).length
              completed_tasks := (db.tasks.filter (fun t =>
                pm_project_ids.contains t.project_id &&
                  t.status == "completed")).length
              total_inventory := total_inventory
              low_stock_items := low_stock_items }
      else
        .ok { total_projects := 0, total_tasks := 0, completed_tasks := 0
              total_inventory := total_inventory
              low_stock_items := low_stock_items }
    else if role == "engineer" || role == "technician" then
      let ids := assignedProjectIds db u.user_id
      if !ids.isEmpty then
        .ok { total_projects := ids.length
              total_tasks := (db.tasks.filter (fun t =>
                t.assigned_to == some u.user_id &&
                  ids.contains t.project_id &&
                  !(t.status == "completed"))).length
              completed_tasks := (db.tasks.filter (fun t =>
                t.assigned_to == some u.user_id &&
                  ids.contains t.project_id &&
                  t.status == "completed")).length
              total_inventory := total_inventory
              low_stock_items := low_stock_items }
      else
        .ok { total_projects := ids.length, total_tasks := 0
              completed_tasks := 0
              total_inventory := total_inventory
              low_stock_items := low_stock_items }
    else .error ⟨403, "Invalid user role: " ++ role⟩

/-- Blueprint row enriched with the uploader display name. -/
structure BlueprintResponse where
  blueprint : Blueprint
  uploader_name : String
deriving DecidableEq, Repr

/-- The uploader-name enrichment of the blueprint handlers. -/
def enrichBlueprint (db : DB) (b : Blueprint) : BlueprintResponse :=
  { blueprint := b
    uploader_name := match findUser db b.uploaded_by with
      | some usr => usr.full_name
      | none => "[User deleted]" }

/-- The optional project filter of `get_blueprints` (Python truthiness: a
filter value of 0 is ignored). -/
def blueprintProjectFilter (project_id : Option Nat) (l : List Blueprint) :
    List Blueprint :=
  match project_id with
  | some pid => if pid != 0 then
      l.filter (fun b => b.project_id == pid) else l
  | none => l

/-- The role filter of `get_blueprints`: engineers/technicians are
restricted to blueprints of their assigned projects. -/
def blueprintRoleFilter (db : DB) (u : User) (l : List Blueprint) :
    List Blueprint :=
  if u.role == some "engineer" || u.role == some "technician" then
    l.filter (fun b =>
      (assignedProjectIds db u.user_id).contains b.project_id)
  else l

/-- `blueprints.get_blueprints`: only active blueprints, optional project
filter, role filter, offset/limit, enrichment. -/
def get_blueprints (db : DB) (project_id : Option Nat) (skip limit : Nat)
    (u : User) : List BlueprintResponse :=
  ((((blueprintRoleFilter db u
      (blueprintProjectFilter project_id
        (db.blueprints.filter (fun b => b.is_active)))).drop skip).take
          limit).map (fun b => enrichBlueprint db b))

/-- `blueprints.get_blueprint`: fetch by id with no `is_active` filter and no
role filter; 404 only when the row is absent. -/
def get_blueprint (db : DB) (bid : Nat) (_current_user : User) :
    Except HTTPExc BlueprintResponse :=
  match findBlueprint db bid with
  | none => .error ⟨404, "Blueprint not found"⟩
  | some b => .ok (enrichBlueprint db b)

/-- `blueprints.delete_blueprint`: 403 unless admin or project manager, 404
on a missing row, then a soft delete - the row stays with `is_active` set to
false.  (The upload-file removal is a file-system effect outside this
model.) -/
def delete_blueprint (db : DB) (bid : Nat) (u : User) :
    Except HTTPExc (DB × String) :=
  if !(u.role == some "admin" || u.role == some "project_manager") then
    .error ⟨403, "Not authorized"⟩
  else
    match findBlueprint db bid with
    | none => .error ⟨404, "Blueprint not found"⟩
    | some b =>
      let b2 := { b with is_active := false }
      .ok ({ db with blueprints := replaceFirstBlueprint db.blueprints bid b2 },
           "Blueprint deleted successfully")

/-! Concrete fixture data used by counterexamples and witnesses. -/

/-- Fixture: an admin. -/
def uAlice : User := ⟨1, "Alice", some "admin", true⟩

/-- Fixture: a project manager, creator of the fixture projects. -/
def uPaula : User := ⟨2, "Paula", some "project_manager", true⟩

/-- Fixture: an engineer. -/
def uEvan : User := ⟨5, "Evan", some "engineer", true⟩

/-- Fixture: a user with an unrecognized role value. -/
def uGhost : User := ⟨7, "Ghost", some "superuser", true⟩

/-- Fixture: a user whose role column is null. -/
def uNoRole : User := ⟨8, "NoRole", none, true⟩

/-- Fixture: team member of project Alpha. -/
def uOne : User := ⟨11, "User One", some "engineer", true⟩

/-- Fixture: team member of project Beta. -/
def uTwo : User := ⟨12, "User Two", some "engineer", true⟩

/-- Fixture project Alpha, created by Paula. -/
def pAlpha : Project := ⟨1, "Alpha", "planning", some 2⟩

/-- Fixture project Beta, created by Paula. -/
def pBeta : Project := ⟨2, "Beta", "planning", some 2⟩

/-- Fixture task on Alpha assigned to User One. -/
def tInstall : Task := ⟨1, 1, "Install", some 11, "pending", none⟩

/-- Fixture database: projects Alpha (team: User One) and Beta (team:
User Two), one task on Alpha assigned to User One, one active blueprint. -/
def exDB : DB :=
  { users := [uAlice, uPaula, uEvan, uGhost, uNoRole, uOne, uTwo]
    projects := [pAlpha, pBeta]
    assignments := [⟨1, 11⟩, ⟨2, 12⟩]
    tasks := [tInstall]
    blueprints := [⟨1, 1, 2, true⟩]
    inventory := [] }

/-- `exDB` after the soft delete of blueprint 1. -/
def exDBdel : DB := { exDB with blueprints := [⟨1, 1, 2, false⟩] }

/-- Fixture for the dashboard/list mismatch: a task assigned to Evan on a
project where Evan is not a team member (no assignment rows at all). -/
def exDB7 : DB :=
  { users := [uEvan]
    projects := [pAlpha]
    assignments := []
    tasks := [⟨1, 1, "Fix pump", some 5, "pending", none⟩]
    blueprints := []
    inventory := [] }

/-- Fixture for the engineer list predicate: five tasks, two assigned to
Evan, three to others. -/
def exDB8 : DB :=
  { users := [uEvan, uOne, uTwo]
    projects := [pAlpha]
    assignments := [⟨1, 5⟩, ⟨1, 11⟩, ⟨1, 12⟩]
    tasks := [⟨1, 1, "A", some 5, "pending", none⟩,
              ⟨2, 1, "B", some 11, "pending", none⟩,
              ⟨3, 1, "C", some 5, "completed", none⟩,
              ⟨4, 1, "D", some 12, "pending", none⟩,
              ⟨5, 1, "E", none, "pending", none⟩]
    blueprints := []
    inventory := [] }

end MarineRetrofit

namespace MarineRetrofit

/-! Helper lemmas shared by the claim theorems. -/

/-- A successful validation of a present assignee means team membership. -/
theorem validate_ok_member (db : DB) (pid uid : Nat)
    (h : validate_task_assignment db pid (some uid) = .ok ()) :
    isTeamMember db pid uid = true := by
  unfold validate_task_assignment at h
  cases hu : findUser db uid with
  | none => simp [hu] at h
  | some u =>
    cases hp : findProject db pid with
    | none => simp [hu, hp] at h
    | some p =>
      simp only [hu, hp] at h
      by_contra hm
      simp [eq_false_of_ne_true hm] at h

/-- Validation never fails with a 403: every error is a 404 or a 400. -/
theorem validate_error_status (db : DB) (pid : Nat) (asg : Option Nat)
    (e : HTTPExc) (h : validate_task_assignment db pid asg = .error e) :
    e.status = 404 ∨ e.status = 400 := by
  unfold validate_task_assignment at h
  cases asg with
  | none => simp at h
  | some uid =>
    cases hu : findUser db uid with
    | none => simp [hu] at h; simp [← h]
    | some u =>
      cases hp : findProject db pid with
      | none => simp [hu, hp] at h; simp [← h]
      | some p =>
        simp only [hu, hp] at h
        cases hm : isTeamMember db pid uid <;> simp [hm] at h
        simp [← h]

/-- Unfolding of `update_task` once the task row is found. -/
theorem update_task_found (db : DB) (tid : Nat) (upd : TaskUpdate) (u : User)
    (task : Task) (hf : findTask db tid = some task) :
    update_task db tid upd u =
      (match checkProjectMove db task upd u with
       | .error e => .error e
       | .ok _ =>
         match checkAssignmentChange db task upd with
         | .error e => .error e
         | .ok _ =>
           .ok ({ db with tasks :=
                    replaceFirstTask db.tasks tid (applyTaskUpdate task upd) },
                applyTaskUpdate task upd)) := by
  unfold update_task; rw [hf]

/-- For a principal who is not a project manager, an error from the
project-move block is always a 404. -/
theorem checkProjectMove_error_status (db : DB) (task : Task)
    (upd : TaskUpdate) (u : User) (e : HTTPExc)
    (hpm : (u.role == some "project_manager") = false)
    (h : checkProjectMove db task upd u = .error e) : e.status = 404 := by
  unfold checkProjectMove at h
  cases hup : upd.project_id with
  | none => rw [hup] at h; simp at h
  | some npid =>
    rw [hup] at h
    simp [hpm] at h
    cases hnp : findProject db npid with
    | none =>
      rw [hnp] at h
      simp at h
      subst h
      rfl
    | some np => rw [hnp] at h; simp at h

/-- An error from the assignment-validation block is a 404 or a 400. -/
theorem checkAssignmentChange_error_status (db : DB) (task : Task)
    (upd : TaskUpdate) (e : HTTPExc)
    (h : checkAssignmentChange db task upd = .error e) :
    e.status = 404 ∨ e.status = 400 := by
  unfold checkAssignmentChange at h
  by_cases hg : (upd.assigned_to.isSome || upd.project_id.isSome) = true
  · rw [if_pos hg] at h
    by_cases hnull : (upd.assigned_to == some none) = true
    · rw [if_pos hnull] at h; simp at h
    · rw [if_neg hnull] at h
      exact validate_error_status db _ _ e h
  · rw [if_neg hg] at h; simp at h

/-- Membership in a `replaceFirstTask` result. -/
theorem mem_replaceFirstTask (ts : List Task) (tid : Nat) (t2 x : Task)
    (h : x ∈ replaceFirstTask ts tid t2) : x ∈ ts ∨ x = t2 := by
  induction ts with
  | nil => simp [replaceFirstTask] at h
  | cons t rest ih =>
    unfold replaceFirstTask at h
    by_cases ht : (t.task_id == tid) = true
    · simp only [ht, if_true] at h
      rcases List.mem_cons.mp h with h1 | h1
      · right; exact h1
      · left; exact List.mem_cons_of_mem _ h1
    · simp only [ht, if_false] at h
      rcases List.mem_cons.mp h with h1 | h1
      · left; exact h1 ▸ List.mem_cons_self _ _
      · rcases ih h1 with h2 | h2
        · left; exact List.mem_cons_of_mem _ h2
        · right; exact h2

/-- Splitting a conjunction-filtered count by a final boolean factor
recovers the count of the first two factors. -/
theorem count_split_three {α : Type} (l : List α) (p m q : α → Bool) :
    (l.filter (fun a => p a && m a && !(q a))).length +
    (l.filter (fun a => p a && m a && q a)).length =
    (l.filter (fun a => p a && m a)).length := by
  induction l with
  | nil => rfl
  | cons a rest ih =>
    simp only [List.filter_cons]
    cases hp : p a <;> cases hm : m a <;> cases hq : q a <;>
      simp [hp, hm, hq] <;> omega

/-- When every task assigned to `uid` lies in a project of `ids`, the
membership conjunct of the filter is redundant. -/
theorem filter_member_drop (l : List Task) (uid : Nat) (ids : List Nat)
    (h : ∀ t ∈ l, t.assigned_to = some uid →
      ids.contains t.project_id = true) :
    l.filter (fun t => t.assigned_to == some uid &&
      ids.contains t.project_id) =
    l.filter (fun t => t.assigned_to == some uid) := by
  apply List.filter_congr
  intro t ht
  cases h1 : (t.assigned_to == some uid)
  · simp
  · have hc := h t ht (beq_iff_eq.mp h1)
    simp only [hc, Bool.and_true]

/-- Replacing one blueprint row preserves the row count. -/
theorem length_replaceFirstBlueprint (bs : List Blueprint) (bid : Nat)
    (b2 : Blueprint) :
    (replaceFirstBlueprint bs bid b2).length = bs.length := by
  induction bs with
  | nil => rfl
  | cons b rest ih =>
    unfold replaceFirstBlueprint
    by_cases hb : (b.blueprint_id == bid) = true
    · rw [if_pos hb]
      simp
    · rw [if_neg hb]
      simp [ih]

/-- After replacing the first row with matching id by `b2` (itself carrying
that id), the lookup by id returns `b2`. -/
theorem find_replaceFirstBlueprint (bs : List Blueprint) (bid : Nat)
    (b2 : Blueprint)
    (hex : (bs.find? (fun b => b.blueprint_id == bid)).isSome = true)
    (hb2 : (b2.blueprint_id == bid) = true) :
    (replaceFirstBlueprint bs bid b2).find?
      (fun b => b.blueprint_id == bid) = some b2 := by
  induction bs with
  | nil => simp [List.find?] at hex
  | cons b rest ih =>
    unfold replaceFirstBlueprint
    by_cases hb : (b.blueprint_id == bid) = true
    · rw [if_pos hb]
      simp [List.find?, hb2]
    · rw [if_neg hb]
      rw [List.find?_cons_of_neg _ (by simpa using hb)]
      apply ih
      rw [List.find?_cons_of_neg _ (by simpa using hb)] at hex
      exact hex

/-- With distinct blueprint ids, the only row of the replaced list carrying
the replaced id is the replacement itself. -/
theorem mem_replaceFirstBlueprint_eq (bs : List Blueprint) (bid : Nat)
    (b2 x : Blueprint)
    (hnd : (bs.map (fun b => b.blueprint_id)).Nodup)
    (hx : x ∈ replaceFirstBlueprint bs bid b2)
    (hxid : x.blueprint_id = bid) : x = b2 := by
  induction bs with
  | nil => simp [replaceFirstBlueprint] at hx
  | cons b rest ih =>
    rw [List.map_cons, List.nodup_cons] at hnd
    unfold replaceFirstBlueprint at hx
    by_cases hb : (b.blueprint_id == bid) = true
    · rw [if_pos hb] at hx
      rcases List.mem_cons.mp hx with h1 | h1
      · exact h1
      · exfalso
        apply hnd.1
        rw [beq_iff_eq.mp hb, ← hxid]
        exact List.mem_map.mpr ⟨x, h1, rfl⟩
    · rw [if_neg hb] at hx
      rcases List.mem_cons.mp hx with h1 | h1
      · exfalso
        apply hb
        rw [h1] at hxid
        exact beq_iff_eq.mpr hxid
      · exact ih hnd.2 h1

/-- Elements survive the optional project filter only from the input. -/
theorem mem_blueprintProjectFilter (pid : Option Nat) (l : List Blueprint)
    (x : Blueprint) (hx : x ∈ blueprintProjectFilter pid l) : x ∈ l := by
  cases pid with
  | none => exact hx
  | some p =>
    rw [show blueprintProjectFilter (some p) l =
        if (p != 0) = true then l.filter (fun b => b.project_id == p) else l
      from rfl] at hx
    by_cases hp : (p != 0) = true
    · rw [if_pos hp] at hx
      exact (List.mem_filter.mp hx).1
    · rw [if_neg hp] at hx
      exact hx

/-- Elements survive the role filter only from the input. -/
theorem mem_blueprintRoleFilter (db : DB) (u : User) (l : List Blueprint)
    (x : Blueprint) (hx : x ∈ blueprintRoleFilter db u l) : x ∈ l := by
  unfold blueprintRoleFilter at hx
  by_cases hr : (u.role == some "engineer" ||
      u.role == some "technician") = true
  · rw [if_pos hr] at hx
    exact (List.mem_filter.mp hx).1
  · rw [if_neg hr] at hx
    exact hx

/-- Splitting a conjunction-filtered count by its final boolean factor. -/
theorem count_split_two {α : Type} (l : List α) (m q : α → Bool) :
    (l.filter (fun a => m a && !(q a))).length +
    (l.filter (fun a => m a && q a)).length =
    (l.filter m).length := by
  induction l with
  | nil => rfl
  | cons a rest ih =>
    simp only [List.filter_cons]
    cases hm : m a <;> cases hq : q a <;> simp [hm, hq] <;> omega

/-- Splitting a count by a boolean predicate and its negation. -/
theorem count_split_not {α : Type} (l : List α) (q : α → Bool) :
    (l.filter (fun a => !(q a))).length + (l.filter q).length =
    l.length := by
  induction l with
  | nil => rfl
  | cons a rest ih =>
    simp only [List.filter_cons]
    cases hq : q a <;> simp [hq] <;> omega

/-- A conjunction filter keeps at most as many rows as its first factor. -/
theorem filter_and_length_le {α : Type} (l : List α) (p q : α → Bool) :
    (l.filter (fun a => p a && q a)).length ≤ (l.filter p).length := by
  induction l with
  | nil => exact Nat.le_refl 0
  | cons a rest ih =>
    simp only [List.filter_cons]
    cases hp : p a <;> cases hq : q a <;> simp [hp, hq] <;> omega

/-- If a conjunction filter keeps as many rows as its first factor alone,
the second factor holds wherever the first does. -/
theorem filter_and_length_eq_imp {α : Type} (l : List α) (p q : α → Bool)
    (h : (l.filter (fun a => p a && q a)).length =
      (l.filter p).length) :
    ∀ a ∈ l, p a = true → q a = true := by
  induction l with
  | nil =>
    intro a ha
    simp at ha
  | cons a rest ih =>
    simp only [List.filter_cons] at h
    cases hp : p a with
    | false =>
      rw [hp] at h
      simp at h
      intro x hx hp2
      rcases List.mem_cons.mp hx with rfl | hx2
      · rw [hp2] at hp
        exact absurd hp (by simp)
      · exact ih h x hx2 hp2
    | true =>
      cases hq : q a with
      | true =>
        rw [hp, hq] at h
        simp at h
        intro x hx hp2
        rcases List.mem_cons.mp hx with rfl | hx2
        · exact hq
        · exact ih h x hx2 hp2
      | false =>
        exfalso
        rw [hp, hq] at h
        simp at h
        have hle := filter_and_length_le rest p q
        omega

/-- Evaluated dashboard counters for an admin. -/
theorem dashboard_admin_value (db : DB) (u : User)
    (hr : u.role = some "admin") :
    get_dashboard_stats db u = .ok
      ⟨db.projects.length,
       (db.tasks.filter (fun t => !(t.status == "completed"))).length,
       (db.tasks.filter (fun t => t.status == "completed")).length,
       db.inventory.length,
       (db.inventory.filter
         (fun i => i.quantity ≤ i.reorder_level)).length⟩ := by
  simp +decide [get_dashboard_stats, hr]

/-- Evaluated dashboard counters for a project manager (the empty-projects
branch coincides with the filters, which are then vacuous). -/
theorem dashboard_pm_value (db : DB) (u : User)
    (hr : u.role = some "project_manager") :
    get_dashboard_stats db u = .ok
      ⟨((db.projects.filter (fun p => p.created_by == some u.user_id)).map
          (fun p => p.project_id)).length,
       (db.tasks.filter (fun t =>
         ((db.projects.filter (fun p => p.created_by == some u.user_id)).map
             (fun p => p.project_id)).contains t.project_id &&
           !(t.status == "completed"))).length,
       (db.tasks.filter (fun t =>
         ((db.projects.filter (fun p => p.created_by == some u.user_id)).map
             (fun p => p.project_id)).contains t.project_id &&
           (t.status == "completed"))).length,
       db.inventory.length,
       (db.inventory.filter
         (fun i => i.quantity ≤ i.reorder_level)).length⟩ := by
  by_cases hids : ((db.projects.filter
      (fun p => p.created_by == some u.user_id)).map
        (fun p => p.project_id)).isEmpty = true
  · have hnil := List.isEmpty_iff.mp hids
    simp +decide [get_dashboard_stats, hr, hids, hnil]
  · simp +decide [get_dashboard_stats, hr, hids]

/-- Evaluated dashboard counters for an engineer or technician (the
empty-assignments branch coincides with the filters, which are then
vacuous). -/
theorem dashboard_eng_value (db : DB) (u : User)
    (hrole : u.role = some "engineer" ∨ u.role = some "technician") :
    get_dashboard_stats db u = .ok
      ⟨(assignedProjectIds db u.user_id).length,
       (db.tasks.filter (fun t => t.assigned_to == some u.user_id &&
         (assignedProjectIds db u.user_id).contains t.project_id &&
         !(t.status == "completed"))).length,
       (db.tasks.filter (fun t => t.assigned_to == some u.user_id &&
         (assignedProjectIds db u.user_id).contains t.project_id &&
         (t.status == "completed"))).length,
       db.inventory.length,
       (db.inventory.filter
         (fun i => i.quantity ≤ i.reorder_level)).length⟩ := by
  by_cases hids : (assignedProjectIds db u.user_id).isEmpty = true
  · have hnil := List.isEmpty_iff.mp hids
    rcases hrole with hr | hr <;>
      simp +decide [get_dashboard_stats, hr, hids, hnil]
  · rcases hrole with hr | hr <;>
      simp +decide [get_dashboard_stats, hr, hids]

/-- Length of the admin task list at sufficient limit. -/
theorem get_tasks_length_admin (db : DB) (u : User) (limit : Nat)
    (hr : u.role = some "admin") (hlim : db.tasks.length ≤ limit) :
    (get_tasks db none 0 limit u).length = db.tasks.length := by
  unfold get_tasks taskVisibilityFilter
  simp +decide [hr, List.drop_zero, List.take_of_length_le hlim]

/-- Length of the project-manager task list at sufficient limit. -/
theorem get_tasks_length_pm (db : DB) (u : User) (limit : Nat)
    (hr : u.role = some "project_manager")
    (hlim : db.tasks.length ≤ limit) :
    (get_tasks db none 0 limit u).length =
      (db.tasks.filter (fun t =>
        ((db.projects.filter (fun p => p.created_by == some u.user_id)).map
          (fun p => p.project_id)).contains t.project_id)).length := by
  unfold get_tasks taskVisibilityFilter
  simp +decide [hr, List.drop_zero,
    List.take_of_length_le ((List.length_filter_le _ _).trans hlim)]

/-- Length of the engineer/technician task list at sufficient limit. -/
theorem get_tasks_length_eng (db : DB) (u : User) (limit : Nat)
    (hrole : u.role = some "engineer" ∨ u.role = some "technician")
    (hlim : db.tasks.length ≤ limit) :
    (get_tasks db none 0 limit u).length =
      (db.tasks.filter
        (fun t => t.assigned_to == some u.user_id)).length := by
  unfold get_tasks taskVisibilityFilter
  rcases hrole with hr | hr <;>
    simp +decide [hr, List.drop_zero,
      List.take_of_length_le ((List.length_filter_le _ _).trans hlim)]

/-- C5: unassignment always passes; a present assignee fails 404 on a
missing user, 404 on a missing project, 400 carrying both display names
on a non-member, and passes exactly when the user is a team member. -/
theorem c5_validate_assignment_cases (db : DB) (pid uid : Nat) :
    validate_task_assignment db pid none = .ok () ∧
    (findUser db uid = none →
      validate_task_assignment db pid (some uid) =
        .error ⟨404, userNotFoundMsg uid⟩) ∧
    (∀ u, findUser db uid = some u → findProject db pid = none →
      validate_task_assignment db pid (some uid) =
        .error ⟨404, projectNotFoundMsg pid⟩) ∧
    (∀ u p, findUser db uid = some u → findProject db pid = some p →
      isTeamMember db pid uid = false →
      validate_task_assignment db pid (some uid) =
        .error ⟨400, notTeamMemberMsg u.full_name p.project_name⟩) ∧
    (∀ u p, findUser db uid = some u → findProject db pid = some p →
      (validate_task_assignment db pid (some uid) = .ok () ↔
        isTeamMember db pid uid = true)) := by
  refine ⟨rfl, ?_, ?_, ?_, ?_⟩
  · intro h
    simp [validate_task_assignment, h]
  · intro u hu hp
    simp [validate_task_assignment, hu, hp]
  · intro u p hu hp hm
    simp [validate_task_assignment, hu, hp, hm]
  · intro u p hu hp
    simp only [validate_task_assignment, hu, hp]
    cases hm : isTeamMember db pid uid <;> simp [hm]

/-- C5 witness: on the fixture, each branch of the validation is hit -
unassignment passes, a missing user gives the 404 user error, a missing
project the 404 project error, a non-member the 400 carrying both display
names, and a team member passes. -/
theorem c5_validate_assignment_cases_witness :
    validate_task_assignment exDB 1 none = .ok () ∧
    validate_task_assignment exDB 1 (some 99) =
      .error ⟨404, userNotFoundMsg 99⟩ ∧
    validate_task_assignment exDB 99 (some 12) =
      .error ⟨404, projectNotFoundMsg 99⟩ ∧
    validate_task_assignment exDB 1 (some 12) =
      .error ⟨400, notTeamMemberMsg uTwo.full_name pAlpha.project_name⟩ ∧
    validate_task_assignment exDB 1 (some 11) = .ok () :=
  ⟨(c5_validate_assignment_cases exDB 1 0).1,
   (c5_validate_assignment_cases exDB 1 99).2.1 (by decide),
   (c5_validate_assignment_cases exDB 99 12).2.2.1 uTwo (by decide)
     (by decide),
   (c5_validate_assignment_cases exDB 1 12).2.2.2.1 uTwo pAlpha (by decide)
     (by decide) (by decide),
   ((c5_validate_assignment_cases exDB 1 11).2.2.2.2 uOne pAlpha (by decide)
     (by decide)).mpr (by decide)⟩

/-- C2 (corrected part): project update and project delete are not denied to
an engineer who is not the creator - on the fixture, Evan (engineer) updates
and deletes Paula's project with no Forbidden error. -/
theorem c2_engineer_can_update_delete_project :
    uEvan.role = some "engineer" ∧
    pAlpha.created_by ≠ some uEvan.user_id ∧
    (update_project exDB 1 { project_name := some "Hacked" } uEvan).isOk
      = true ∧
    (delete_project exDB 1 uEvan).isOk = true := by decide

/-- C2 (amended): `update_project` and `delete_project` make no
authorization decision at all - their result is independent of the
principal, they succeed on every existing project for every principal, and
only a missing project yields an error (404). -/
theorem c2_project_update_delete_ignore_principal (db : DB) (pid : Nat)
    (upd : ProjectUpdate) (u1 u2 : User) :
    update_project db pid upd u1 = update_project db pid upd u2 ∧
    delete_project db pid u1 = delete_project db pid u2 ∧
    ((findProject db pid).isSome = true →
      (update_project db pid upd u1).isOk = true ∧
      (delete_project db pid u1).isOk = true) ∧
    (findProject db pid = none →
      update_project db pid upd u1 = .error ⟨404, "Project not found"⟩ ∧
      delete_project db pid u1 = .error ⟨404, "Project not found"⟩) := by
  refine ⟨rfl, rfl, ?_, ?_⟩
  · intro h
    cases hp : findProject db pid with
    | none => rw [hp] at h; simp at h
    | some p =>
      exact ⟨by unfold update_project; rw [hp]; rfl,
             by unfold delete_project; rw [hp]; rfl⟩
  · intro h
    exact ⟨by unfold update_project; rw [h],
           by unfold delete_project; rw [h]⟩

/-- C2 witness: Evan (engineer, not the creator) successfully updates
project 1 and deletes project 2 of the fixture. -/
theorem c2_project_update_delete_ignore_principal_witness :
    (update_project exDB 1 { project_name := some "Hacked" } uEvan).isOk
      = true ∧
    (delete_project exDB 2 uEvan).isOk = true :=
  ⟨((c2_project_update_delete_ignore_principal exDB 1
      { project_name := some "Hacked" } uEvan uAlice).2.2.1 (by decide)).1,
   ((c2_project_update_delete_ignore_principal exDB 2
      { project_name := some "Hacked" } uEvan uAlice).2.2.1 (by decide)).2⟩

/-- C3 (corrected part): task update is not denied to an engineer on a task
assigned to someone else - on the fixture, Evan renames a task assigned to
user 11 with no Forbidden error. -/
theorem c3_engineer_can_update_foreign_task :
    uEvan.role = some "engineer" ∧
    findTask exDB 1 = some tInstall ∧
    ¬(tInstall.assigned_to = some uEvan.user_id) ∧
    (update_task exDB 1 { task_name := some "Renamed" } uEvan).isOk
      = true := by decide

/-- C3 (amended): for an engineer or technician, task complete is denied
with 403 exactly on tasks not assigned to them and succeeds on their own
tasks (setting the completed status and the completion date); task update,
however, carries no engineer/technician check - it can fail 404 or 400 but
never 403 for these roles. -/
theorem c3_complete_gated_update_ungated (db : DB) (tid : Nat) (u : User)
    (today : Nat) (task : Task)
    (hrole : u.role = some "engineer" ∨ u.role = some "technician")
    (hf : findTask db tid = some task) :
    (¬(task.assigned_to = some u.user_id) →
      mark_task_done db tid u today =
        .error ⟨403, "You can only complete tasks assigned to you"⟩) ∧
    (task.assigned_to = some u.user_id →
      (mark_task_done db tid u today).map
        (fun r => (r.snd.status, r.snd.completion_date)) =
          .ok ("completed", some today)) ∧
    (∀ upd e, update_task db tid upd u = .error e → e.status ≠ 403) := by
  have hpm : (u.role == some "project_manager") = false := by
    rcases hrole with hr | hr <;> simp +decide [hr]
  refine ⟨?_, ?_, ?_⟩
  · intro hne
    have hb : (task.assigned_to != some u.user_id) = true := by
      simp [bne_iff_ne]; exact hne
    rcases hrole with hr | hr <;>
      simp +decide [mark_task_done, hf, hr, hb]
  · intro heq
    rcases hrole with hr | hr <;>
      simp +decide [mark_task_done, hf, hr, heq, Except.map]
  · intro upd e h
    rw [update_task_found db tid upd u task hf] at h
    cases hcp : checkProjectMove db task upd u with
    | error ecp =>
      rw [hcp] at h
      simp at h
      have h4 := checkProjectMove_error_status db task upd u ecp hpm hcp
      rw [← h]
      omega
    | ok vcp =>
      rw [hcp] at h
      simp at h
      cases hca : checkAssignmentChange db task upd with
      | error eca =>
        rw [hca] at h
        simp at h
        have h4 := checkAssignmentChange_error_status db task upd eca hca
        rw [← h]
        rcases h4 with h4 | h4 <;> omega
      | ok vca => rw [hca] at h; simp at h

/-- C3 witness: Evan is denied (403) completing the fixture task assigned
to user 11, and successfully completes the task assigned to him in the
five-task fixture. -/
theorem c3_complete_gated_update_ungated_witness :
    mark_task_done exDB 1 uEvan 7 =
      .error ⟨403, "You can only complete tasks assigned to you"⟩ ∧
    (mark_task_done exDB8 1 uEvan 7).map
      (fun r => (r.snd.status, r.snd.completion_date)) =
        .ok ("completed", some 7) :=
  ⟨(c3_complete_gated_update_ungated exDB 1 uEvan 7 tInstall
      (Or.inl rfl) (by decide)).1 (by decide),
   (c3_complete_gated_update_ungated exDB8 1 uEvan 7
      ⟨1, 1, "A", some 5, "pending", none⟩ (Or.inl rfl) (by decide)).2.1
     (by decide)⟩

/-- C4 (corrected part): task creation is not denied to an engineer - on
the fixture, Evan creates a task with no Forbidden error. -/
theorem c4_engineer_can_create_task :
    uEvan.role = some "engineer" ∧
    (create_task exDB ⟨1, "Sneaky", some 11, "pending"⟩ uEvan).isOk
      = true := by decide

/-- C4 (amended): `create_task` makes no role decision - its result is
independent of the principal, and it succeeds for every principal whenever
the assignment validation passes. -/
theorem c4_create_task_ignores_principal (db : DB) (payload : TaskCreate)
    (u1 u2 : User) :
    create_task db payload u1 = create_task db payload u2 ∧
    ((validate_task_assignment db payload.project_id
        payload.assigned_to).isOk = true →
      (create_task db payload u1).isOk = true) := by
  refine ⟨rfl, ?_⟩
  intro h
  unfold create_task
  cases hv : validate_task_assignment db payload.project_id
      payload.assigned_to with
  | error e => rw [hv] at h; simp [Except.isOk, Except.toBool] at h
  | ok v => rfl

/-- C4 witness: Evan (engineer) and Alice (admin) get the same result
creating the same task, and Evan's creation succeeds. -/
theorem c4_create_task_ignores_principal_witness :
    create_task exDB ⟨1, "Sneaky", some 11, "pending"⟩ uEvan =
      create_task exDB ⟨1, "Sneaky", some 11, "pending"⟩ uAlice ∧
    (create_task exDB ⟨1, "Sneaky", some 11, "pending"⟩ uEvan).isOk
      = true :=
  ⟨(c4_create_task_ignores_principal exDB
      ⟨1, "Sneaky", some 11, "pending"⟩ uEvan uAlice).1,
   (c4_create_task_ignores_principal exDB
      ⟨1, "Sneaky", some 11, "pending"⟩ uEvan uAlice).2 (by decide)⟩

/-- C6: on a task update whose change set touches `assigned_to` or
`project_id` (and whose project-move pre-checks pass), the handler's outcome
is exactly that of assignment validation against the final resulting
project id and the final resulting assignee: the validation error when it
fails, the updated task when it passes.  (An explicit null assignment is
let through by the handler; validation of a null assignee succeeds too, so
the equation also holds there.) -/
theorem c6_update_validates_final_assignment (db : DB) (tid : Nat)
    (upd : TaskUpdate) (u : User) (task : Task)
    (hf : findTask db tid = some task)
    (hcp : checkProjectMove db task upd u = .ok ())
    (hchange : (upd.assigned_to.isSome || upd.project_id.isSome) = true) :
    update_task db tid upd u =
      (match validate_task_assignment db
          (upd.project_id.getD task.project_id)
          (finalAssignedTo task upd) with
       | .ok _ =>
         .ok ({ db with tasks :=
                  replaceFirstTask db.tasks tid (applyTaskUpdate task upd) },
              applyTaskUpdate task upd)
       | .error e => .error e) := by
  rw [update_task_found db tid upd u task hf, hcp]
  unfold checkAssignmentChange
  rw [if_pos hchange]
  by_cases hnull : (upd.assigned_to == some none) = true
  · rw [if_pos hnull]
    have hfin : finalAssignedTo task upd = none := by
      unfold finalAssignedTo
      rw [beq_iff_eq.mp hnull]
    rw [hfin]
    rfl
  · rw [if_neg hnull]
    cases hv : validate_task_assignment db
        (upd.project_id.getD task.project_id)
        (finalAssignedTo task upd) with
    | ok v => rfl
    | error e => rfl

/-- C6 witness: moving the fixture task (assigned to user 11, a member of
Alpha but not of Beta) to project Beta fails with the 400 non-member error;
moving it while reassigning to user 12, a member of Beta, succeeds. -/
theorem c6_update_validates_final_assignment_witness :
    update_task exDB 1 { project_id := some 2 } uAlice =
      .error ⟨400, notTeamMemberMsg "User One" "Beta"⟩ ∧
    (update_task exDB 1
      { project_id := some 2, assigned_to := some (some 12) } uAlice).isOk
        = true := by
  constructor
  · have h := c6_update_validates_final_assignment exDB 1
      { project_id := some 2 } uAlice tInstall (by rfl) (by rfl) (by rfl)
    rw [h]
    rfl
  · have h := c6_update_validates_final_assignment exDB 1
      { project_id := some 2, assigned_to := some (some 12) } uAlice
      tInstall (by rfl) (by rfl) (by rfl)
    rw [h]
    rfl

/-- C7 (corrected part): the dashboard task count for an engineer is not
computed with the task-list visibility predicate.  On a fixture with one
task assigned to Evan on a project where Evan holds no `ProjectAssignment`
row, the list endpoint returns the task but the dashboard counts zero open
and zero completed tasks. -/
theorem c7_dashboard_count_differs_from_list :
    uEvan.role = some "engineer" ∧
    (get_tasks exDB7 none 0 100 uEvan).length = 1 ∧
    get_dashboard_stats exDB7 uEvan = .ok ⟨0, 0, 0, 0, 0⟩ :=
  ⟨rfl, by decide, by rfl⟩

/-- C7 (amended): for an admin or project manager the dashboard
open-plus-completed task count equals the number of tasks the task-list
endpoint returns (same visibility predicate); for an engineer or technician
the dashboard counts with the strictly stronger predicate (assigned to the
principal AND project among the principal's assigned projects), and the
count equals the task-list size exactly when every task assigned to the
principal lies in one of their assigned projects. -/
theorem c7_dashboard_matches_list_under_membership (db : DB) (u : User)
    (limit : Nat) (hlim : db.tasks.length ≤ limit) :
    (u.role = some "admin" →
      (get_dashboard_stats db u).map
        (fun s => s.total_tasks + s.completed_tasks) =
        .ok (get_tasks db none 0 limit u).length) ∧
    (u.role = some "project_manager" →
      (get_dashboard_stats db u).map
        (fun s => s.total_tasks + s.completed_tasks) =
        .ok (get_tasks db none 0 limit u).length) ∧
    ((u.role = some "engineer" ∨ u.role = some "technician") →
      ((get_dashboard_stats db u).map
          (fun s => s.total_tasks + s.completed_tasks) =
          .ok (get_tasks db none 0 limit u).length ↔
        ∀ t ∈ db.tasks, t.assigned_to = some u.user_id →
          (assignedProjectIds db u.user_id).contains t.project_id
            = true)) := by
  refine ⟨?_, ?_, ?_⟩
  · intro hr
    rw [dashboard_admin_value db u hr,
      get_tasks_length_admin db u limit hr hlim]
    simp only [Except.map]
    exact congrArg Except.ok
      (count_split_not db.tasks (fun t => t.status == "completed"))
  · intro hr
    rw [dashboard_pm_value db u hr,
      get_tasks_length_pm db u limit hr hlim]
    simp only [Except.map]
    exact congrArg Except.ok
      (count_split_two db.tasks
        (fun t =>
          ((db.projects.filter
            (fun p => p.created_by == some u.user_id)).map
              (fun p => p.project_id)).contains t.project_id)
        (fun t => t.status == "completed"))
  · intro hrole
    rw [dashboard_eng_value db u hrole,
      get_tasks_length_eng db u limit hrole hlim]
    simp only [Except.map]
    rw [Except.ok.injEq]
    have hsplit := count_split_three db.tasks
      (fun t => t.assigned_to == some u.user_id)
      (fun t => (assignedProjectIds db u.user_id).contains t.project_id)
      (fun t => t.status == "completed")
    constructor
    · intro h
      have h2 := hsplit.symm.trans h
      intro t ht ha
      exact filter_and_length_eq_imp db.tasks
        (fun t => t.assigned_to == some u.user_id)
        (fun t => (assignedProjectIds db u.user_id).contains t.project_id)
        h2 t ht (beq_iff_eq.mpr ha)
    · intro hmem
      have hdrop := filter_member_drop db.tasks u.user_id
        (assignedProjectIds db u.user_id) hmem
      rw [← hdrop]
      exact hsplit

/-- C7 witness: on the five-task fixture the admin and project-manager
counts both equal their list sizes (five tasks), and for Evan the
membership condition holds, so his dashboard count (one open plus one
completed) equals his two-task list. -/
theorem c7_dashboard_matches_list_under_membership_witness :
    (get_dashboard_stats exDB8 uAlice).map
      (fun s => s.total_tasks + s.completed_tasks) =
      .ok (get_tasks exDB8 none 0 100 uAlice).length ∧
    (get_dashboard_stats exDB8 uPaula).map
      (fun s => s.total_tasks + s.completed_tasks) =
      .ok (get_tasks exDB8 none 0 100 uPaula).length ∧
    (get_dashboard_stats exDB8 uEvan).map
      (fun s => s.total_tasks + s.completed_tasks) =
      .ok (get_tasks exDB8 none 0 100 uEvan).length ∧
    (get_tasks exDB8 none 0 100 uEvan).length = 2 :=
  ⟨(c7_dashboard_matches_list_under_membership exDB8 uAlice 100
      (by decide)).1 rfl,
   (c7_dashboard_matches_list_under_membership exDB8 uPaula 100
      (by decide)).2.1 rfl,
   ((c7_dashboard_matches_list_under_membership exDB8 uEvan 100
      (by decide)).2.2 (Or.inl rfl)).mpr (by decide),
   by decide⟩

/-- C8: for an engineer or technician, the task list (no project filter,
no offset, sufficient limit) is exactly the list of tasks whose assignee is
the principal - nothing else is included and nothing assigned to the
principal is missed. -/
theorem c8_engineer_task_list_exact (db : DB) (u : User) (limit : Nat)
    (hrole : u.role = some "engineer" ∨ u.role = some "technician")
    (hlim : (db.tasks.filter
      (fun t => t.assigned_to == some u.user_id)).length ≤ limit) :
    (get_tasks db none 0 limit u).map (fun r => r.task) =
      db.tasks.filter (fun t => t.assigned_to == some u.user_id) := by
  unfold get_tasks taskVisibilityFilter
  rcases hrole with hr | hr <;>
    simp +decide [hr, List.drop_zero, List.take_of_length_le hlim,
      List.map_map, Function.comp, enrichTask] <;>
    exact List.map_id' _

/-- C8 witness: on the five-task fixture (two tasks assigned to Evan, two
to others, one unassigned) the list returns exactly Evan's two tasks. -/
theorem c8_engineer_task_list_exact_witness :
    (get_tasks exDB8 none 0 100 uEvan).map (fun r => r.task) =
      exDB8.tasks.filter
        (fun t => t.assigned_to == some uEvan.user_id) ∧
    (get_tasks exDB8 none 0 100 uEvan).length = 2 :=
  ⟨c8_engineer_task_list_exact exDB8 uEvan 100 (Or.inl rfl) (by decide),
   by decide⟩

/-- C9: a principal whose role is null or outside the four enumerated
values never obtains dashboard counts - the handler fails (500 for a null
role, 403 for an unrecognized one). -/
theorem c9_dashboard_fails_closed_on_bad_role (db : DB) (u : User)
    (h : u.role = none ∨
      (¬(u.role = some "admin") ∧ ¬(u.role = some "project_manager") ∧
       ¬(u.role = some "engineer") ∧ ¬(u.role = some "technician"))) :
    (get_dashboard_stats db u).isOk = false := by
  rcases h with h | h
  · unfold get_dashboard_stats
    rw [h]
    rfl
  · obtain ⟨h1, h2, h3, h4⟩ := h
    cases hr : u.role with
    | none => unfold get_dashboard_stats; rw [hr]; rfl
    | some r =>
      rw [hr] at h1 h2 h3 h4
      have b1 : (r == "admin") = false := by
        rw [beq_eq_false_iff_ne]; intro hx; exact h1 (by rw [hx])
      have b2 : (r == "project_manager") = false := by
        rw [beq_eq_false_iff_ne]; intro hx; exact h2 (by rw [hx])
      have b3 : (r == "engineer") = false := by
        rw [beq_eq_false_iff_ne]; intro hx; exact h3 (by rw [hx])
      have b4 : (r == "technician") = false := by
        rw [beq_eq_false_iff_ne]; intro hx; exact h4 (by rw [hx])
      unfold get_dashboard_stats
      rw [hr]
      simp [b1, b2, b3, b4, Except.isOk, Except.toBool]

/-- C9 witness: the dashboard fails for a principal with the unrecognized
role superuser and for a principal with a null role. -/
theorem c9_dashboard_fails_closed_on_bad_role_witness :
    (get_dashboard_stats exDB uGhost).isOk = false ∧
    (get_dashboard_stats exDB uNoRole).isOk = false :=
  ⟨c9_dashboard_fails_closed_on_bad_role exDB uGhost
    (Or.inr (by refine ⟨?_, ?_, ?_, ?_⟩ <;> decide)),
   c9_dashboard_fails_closed_on_bad_role exDB uNoRole (Or.inl rfl)⟩

/-- C10: blueprint delete is a soft delete.  After a successful delete the
row remains (same row count) with `is_active` false, the list endpoint never
returns the deleted id again (for any caller, filter, offset, limit), and
the read-one endpoint still returns it instead of a 404. -/
theorem c10_blueprint_soft_delete (db : DB) (bid : Nat) (u : User)
    (db2 : DB) (msg : String)
    (hnd : (db.blueprints.map (fun b => b.blueprint_id)).Nodup)
    (hdel : delete_blueprint db bid u = .ok (db2, msg)) :
    (findBlueprint db2 bid).map (fun b => b.is_active) = some false ∧
    db2.blueprints.length = db.blueprints.length ∧
    (∀ u3, (get_blueprint db2 bid u3).isOk = true) ∧
    (∀ pid skip limit u2, (get_blueprints db2 pid skip limit u2).all
      (fun r => !(r.blueprint.blueprint_id == bid)) = true) := by
  unfold delete_blueprint at hdel
  by_cases hrole : (!(u.role == some "admin" ||
      u.role == some "project_manager")) = true
  · rw [if_pos hrole] at hdel
    simp at hdel
  · rw [if_neg hrole] at hdel
    cases hfb : findBlueprint db bid with
    | none => rw [hfb] at hdel; simp at hdel
    | some b =>
      rw [hfb] at hdel
      simp at hdel
      obtain ⟨hdb, hmsg⟩ := hdel
      subst hdb
      have hbid : (b.blueprint_id == bid) = true := by
        unfold findBlueprint at hfb
        exact List.find?_some
          (p := fun (x : Blueprint) => x.blueprint_id == bid) hfb
      have hfind : findBlueprint
          ({ db with blueprints :=
              (replaceFirstBlueprint db.blueprints bid
                ({ b with is_active := false })) }) bid =
          some ({ b with is_active := false }) := by
        unfold findBlueprint
        apply find_replaceFirstBlueprint
        · unfold findBlueprint at hfb
          rw [hfb]
          rfl
        · exact hbid
      refine ⟨?_, ?_, ?_, ?_⟩
      · rw [hfind]
        rfl
      · exact length_replaceFirstBlueprint db.blueprints bid _
      · intro u3
        unfold get_blueprint
        rw [hfind]
        rfl
      · intro pid skip limit u2
        rw [List.all_eq_true]
        intro r hr2
        unfold get_blueprints at hr2
        obtain ⟨x, hx, rfl⟩ := List.mem_map.mp hr2
        have hx1 := List.mem_of_mem_drop (List.mem_of_mem_take hx)
        have hx2 := mem_blueprintRoleFilter _ _ _ _ hx1
        have hx3 := mem_blueprintProjectFilter _ _ _ hx2
        have hx4 := List.mem_filter.mp hx3
        cases hxid : (x.blueprint_id == bid) with
        | false => simp [enrichBlueprint, hxid]
        | true =>
          exfalso
          have hxeq : x = { b with is_active := false } :=
            mem_replaceFirstBlueprint_eq db.blueprints bid _ x hnd hx4.1
              (beq_iff_eq.mp hxid)
          rw [hxeq] at hx4
          exact absurd hx4.2 (by simp)

/-- C10 witness: Alice soft deletes the fixture blueprint; afterwards the
row is present and inactive, the list shows nothing with its id, and the
read-one endpoint still succeeds. -/
theorem c10_blueprint_soft_delete_witness :
    (findBlueprint exDBdel 1).map (fun b => b.is_active) = some false ∧
    exDBdel.blueprints.length = exDB.blueprints.length ∧
    (get_blueprint exDBdel 1 uEvan).isOk = true ∧
    (get_blueprints exDBdel none 0 100 uAlice).all
      (fun r => !(r.blueprint.blueprint_id == 1)) = true := by
  have h := c10_blueprint_soft_delete exDB 1 uAlice exDBdel
    "Blueprint deleted successfully" (by decide) (by rfl)
  exact ⟨h.1, h.2.1, h.2.2.1 uEvan, h.2.2.2 none 0 100 uAlice⟩

/-- C1 (corrected part): replacing a project's team via project update can
leave an existing task of that project assigned to a user who is no longer a
team member - the invariant does not survive every operation sequence.  On
the fixture the invariant holds, the team of project 1 is replaced by
user 12, the update succeeds, and the invariant is now violated. -/
theorem c1_team_replacement_breaks_invariant :
    taskAssignmentInvariant exDB = true ∧
    (update_project exDB 1 { assigned_user_ids := some [12] } uAlice).map
      (fun r => taskAssignmentInvariant r.fst) = .ok false :=
  ⟨by decide, by rfl⟩

/-- C1 (amended): the invariant is guaranteed by the task write paths - task
creation and task update preserve it (assignment validation runs whenever the
assignee or project changes) - while project update carries no such
guarantee. -/
theorem c1_task_endpoints_preserve_invariant (db : DB) (u : User) :
    (∀ payload, taskAssignmentInvariant db = true →
      (match create_task db payload u with
       | .ok r => taskAssignmentInvariant r.fst
       | .error _ => true) = true) ∧
    (∀ tid upd, taskAssignmentInvariant db = true →
      (match update_task db tid upd u with
       | .ok r => taskAssignmentInvariant r.fst
       | .error _ => true) = true) := by
  constructor
  · intro payload hinv
    cases hv : validate_task_assignment db payload.project_id
        payload.assigned_to with
    | error e => simp [create_task, hv]
    | ok v =>
      simp only [create_task, hv]
      unfold taskAssignmentInvariant at hinv ⊢
      rw [List.all_eq_true] at hinv ⊢
      intro t ht
      rcases List.mem_append.mp ht with h1 | h1
      · exact hinv t h1
      · rcases List.mem_singleton.mp h1 with rfl
        cases ha : payload.assigned_to with
        | none => simp
        | some uid =>
          simp only []
          have hv2 : validate_task_assignment db payload.project_id
              (some uid) = .ok () := by rw [← ha, hv]
          exact validate_ok_member db payload.project_id uid hv2
  · intro tid upd hinv
    cases hf : findTask db tid with
    | none => simp [update_task, hf]
    | some task =>
      cases hcp : checkProjectMove db task upd u with
      | error e => simp [update_task, hf, hcp]
      | ok v =>
        cases hca : checkAssignmentChange db task upd with
        | error e => simp [update_task, hf, hcp, hca]
        | ok v2 =>
          simp only [update_task, hf, hcp, hca]
          unfold taskAssignmentInvariant at hinv ⊢
          rw [List.all_eq_true] at hinv ⊢
          intro t ht
          rcases mem_replaceFirstTask _ _ _ _ ht with h1 | h1
          · exact hinv t h1
          · rcases h1 with rfl
            have hfld : (applyTaskUpdate task upd).assigned_to =
                finalAssignedTo task upd := rfl
            have hpid : (applyTaskUpdate task upd).project_id =
                upd.project_id.getD task.project_id := rfl
            unfold checkAssignmentChange at hca
            by_cases hg : (upd.assigned_to.isSome || upd.project_id.isSome)
                = true
            · rw [if_pos hg] at hca
              by_cases hnull : (upd.assigned_to == some none) = true
              · have hnull2 : upd.assigned_to = some none :=
                  beq_iff_eq.mp hnull
                have : (applyTaskUpdate task upd).assigned_to = none := by
                  rw [hfld]; unfold finalAssignedTo; rw [hnull2]
                simp [this]
              · rw [if_neg hnull] at hca
                cases hfa : finalAssignedTo task upd with
                | none => simp [hfld, hfa]
                | some uid =>
                  simp only [hfld, hfa]
                  have hv2 : validate_task_assignment db
                      (upd.project_id.getD task.project_id) (some uid) =
                      .ok () := by rw [← hfa, hca]
                  have := validate_ok_member db _ uid hv2
                  unfold isTeamMember at this
                  rw [hpid]
                  exact this
            · rw [if_neg hg] at hca
              have hup : upd.assigned_to = none ∧ upd.project_id = none := by
                constructor
                · cases h : upd.assigned_to with
                  | none => rfl
                  | some v3 => rw [h] at hg; simp at hg
                · cases h : upd.project_id with
                  | none => rfl
                  | some v3 => rw [h] at hg; simp at hg
              have hmem : task ∈ db.tasks := by
                unfold findTask at hf
                exact List.mem_of_find?_eq_some hf
              have hold := hinv task hmem
              have h2 : (applyTaskUpdate task upd).assigned_to =
                  task.assigned_to := by
                rw [hfld]; unfold finalAssignedTo; rw [hup.1]
              have h3 : (applyTaskUpdate task upd).project_id =
                  task.project_id := by
                rw [hpid, hup.2]; rfl
              rw [h2, h3]
              exact hold

/-- C1 witness: on the fixture the invariant holds and is preserved by a
task creation (Paula adds a task on Alpha assigned to team member 11) and by
a task update (Alice moves the task to Beta reassigning it to member 12). -/
theorem c1_task_endpoints_preserve_invariant_witness :
    taskAssignmentInvariant exDB = true ∧
    (create_task exDB ⟨1, "New", some 11, "pending"⟩ uPaula).isOk = true ∧
    (match create_task exDB ⟨1, "New", some 11, "pending"⟩ uPaula with
     | .ok r => taskAssignmentInvariant r.fst
     | .error _ => true) = true ∧
    (update_task exDB 1
      { project_id := some 2, assigned_to := some (some 12) } uAlice).isOk
        = true ∧
    (match update_task exDB 1
        { project_id := some 2, assigned_to := some (some 12) } uAlice with
     | .ok r => taskAssignmentInvariant r.fst
     | .error _ => true) = true :=
  ⟨by decide, by decide,
   (c1_task_endpoints_preserve_invariant exDB uPaula).1
     ⟨1, "New", some 11, "pending"⟩ (by decide),
   by decide,
   (c1_task_endpoints_preserve_invariant exDB uAlice).2 1
     { project_id := some 2, assigned_to := some (some 12) } (by decide)⟩

end MarineRetrofit
